import Mathlib

/-!
Shallow embedding of `src/ai_stock_analyzer.py`: a watchlist quote fetcher
(`get_stock_data`), a color-coding formatter (`format_stock_summary`) and a
sequential main loop.

Numeric values observed from the quote provider are modelled as exact
rationals (`ℚ`) plus an explicit `nan` marker mirroring IEEE NaN as the
script sees it through `pd.isna` and comparisons.  Python's `round(x, 2)` is
modelled as exact round-half-to-even on ℚ, and the display of the rounded
value by an f-string as a decimal rendering with the trailing zero trimmed
(at least one fractional digit), which is what `repr` prints for such
two-decimal floats; Python's negative zero (`round` of a small negative
value, displayed `-0.0`) is modelled explicitly.
-/

/-- Model of a Python float as observed by the script: NaN or an exact
rational value. -/
inductive PyFloat where
  | nan : PyFloat
  | num : ℚ → PyFloat
deriving DecidableEq

/-- Python truthiness of a float (`if price:`): NaN is truthy, `0.0` is
falsy. -/
def PyFloat.truthy : PyFloat → Bool
  | .nan => true
  | .num q => q != 0

/-- Model of `pd.isna` on a float. -/
def PyFloat.isna : PyFloat → Bool
  | .nan => true
  | .num _ => false

/-- Round a rational to the nearest integer, ties to even: the rounding mode
of Python's `round`. -/
def roundHalfEven (q : ℚ) : ℤ :=
  let f : ℤ := ⌊q⌋
  let frac : ℚ := q - (f : ℚ)
  if frac < 1/2 then f
  else if 1/2 < frac then f + 1
  else if f % 2 = 0 then f else f + 1

/-- Fuel-driven accumulation of the decimal digits of `n`, most significant
first; fuel `n + 1` always suffices. -/
def natDecAux : ℕ → ℕ → List Char → List Char
  | 0, _, acc => acc
  | fuel + 1, n, acc =>
    if n = 0 then acc
    else natDecAux fuel (n / 10) (Char.ofNat (48 + n % 10) :: acc)

/-- Decimal rendering of a natural number (Python `str` on a nonnegative
integer). -/
def natDec (n : ℕ) : String :=
  if n = 0 then "0" else ⟨natDecAux (n + 1) n []⟩

/-- Display of the exact value `n / 100` the way `repr` displays a
two-decimal Python float: trailing zero of the fraction trimmed, at least one
fractional digit (`2500 ↦ "25.0"`, `1234 ↦ "12.34"`, `1230 ↦ "12.3"`,
`104 ↦ "1.04"`, `-500 ↦ "-5.0"`). -/
def fmtHundredths (n : ℤ) : String :=
  let sign := if n < 0 then "-" else ""
  let m := n.natAbs
  let ip := m / 100
  let fr := m % 100
  if fr = 0 then sign ++ natDec ip ++ ".0"
  else if fr % 10 = 0 then sign ++ natDec ip ++ "." ++ natDec (fr / 10)
  else if fr < 10 then sign ++ natDec ip ++ ".0" ++ natDec fr
  else sign ++ natDec ip ++ "." ++ natDec fr

/-- Model of `f"{round(x, 2)}"`: round half-to-even to two decimals and
render.  Python's `round` returns `-0.0` for a negative `x` rounding to zero
and `repr (-0.0) = "-0.0"`; that case is modelled explicitly. -/
def reprRound2 (q : ℚ) : String :=
  let n := roundHalfEven (q * 100)
  if n = 0 ∧ q < 0 then "-0.0" else fmtHundredths n

/-- Model of `f"{x:.2f}"`: exactly two decimals, half-to-even; a negative
value rounding to zero keeps its sign (`f"{-0.001:.2f}" = "-0.00"`). -/
def fmtFixed2 (q : ℚ) : String :=
  let n := roundHalfEven (q * 100)
  let m := n.natAbs
  let sign := if q < 0 then "-" else ""
  let frPart := if m % 100 < 10 then "0" ++ natDec (m % 100) else natDec (m % 100)
  sign ++ natDec (m / 100) ++ "." ++ frPart

/-- Model of `f"{x:.2f}"` on a nullable-free float value (`f"{nan:.2f}"` is
`"nan"`). -/
def pyFixed2 : PyFloat → String
  | .nan => "nan"
  | .num q => fmtFixed2 q

/-- Model of the `stock.info` metadata dictionary fields the script reads;
`none` is a key absent from the dictionary (`dict.get` returning `None`). -/
structure Info where
  shortName : Option String
  currentPrice : Option PyFloat
  regularMarketPrice : Option PyFloat
  fiftyTwoWeekHigh : Option PyFloat
  regularMarketChangePercent : Option PyFloat

/-- One provider access: it can raise (to be caught by the `try:` around it)
or return a value. -/
abbrev Attempt (α : Type) := Except Unit α

/-- Model of everything `get_stock_data` observes from yfinance for one
ticker.  Each `stock.info` access sits in its own `try:` in the source and
may fail independently, so each gets its own `Attempt`; `.ok none` models a
falsy (empty) dictionary, for which `if info:` skips the body.  For
`fast_info`, `.ok none` models a missing attribute (`hasattr` false) or a
`None` value, both of which leave the price unset.  For `history`, `.ok
none` models an empty frame or a missing `Close` column, and `.ok (some v)`
the last close `float(hist['Close'].iloc[-1])`.  `ctorExc = some e` models
`yf.Ticker(ticker)` raising an exception with message `e`: the only
statement of `get_stock_data` outside all inner `try:` blocks, hence the
only way to reach the outer `except Exception` handler on line 153. -/
structure Provider where
  ctorExc : Option String
  infoName : Attempt (Option Info)
  fastPrice : Attempt (Option PyFloat)
  histClose : Attempt (Option PyFloat)
  infoPrice : Attempt (Option Info)
  fastHigh : Attempt (Option PyFloat)
  infoHigh : Attempt (Option Info)
  infoChange : Attempt (Option Info)

/-- Lines 58-67: `stock_name` from `info.get('shortName')`, kept only when
the name is truthy (a nonempty string; `pd.isna` of a string is false),
otherwise the initial `"N/A"`. -/
def selectName (p : Provider) : String :=
  match p.infoName with
  | .ok (some info) =>
    match info.shortName with
    | some name => if name != "" then name else "N/A"
    | none => "N/A"
  | _ => "N/A"

/-- Lines 69-99: current price, three ordered attempts.  Attempt 1
(`fast_info.last_price`) keeps a truthy non-NaN value; attempt 2 takes the
last close of a non-empty history unconditionally; attempt 3 takes
`info.get('currentPrice') or info.get('regularMarketPrice')` (Python `or`:
the second operand when the first is falsy) and keeps it when truthy and
non-NaN.  Attempts 2 and 3 run only while the price is still `None`, and a
raising attempt is swallowed by its own `except: pass`. -/
def selectPrice (p : Provider) : Option PyFloat :=
  let m1 : Option PyFloat :=
    match p.fastPrice with
    | .ok (some price) => if price.truthy && !price.isna then some price else none
    | _ => none
  match m1 with
  | some v => some v
  | none =>
    let m2 : Option PyFloat :=
      match p.histClose with
      | .ok (some close) => some close
      | _ => none
    match m2 with
    | some v => some v
    | none =>
      match p.infoPrice with
      | .ok (some info) =>
        let price : Option PyFloat :=
          match info.currentPrice with
          | some v => if v.truthy then some v else info.regularMarketPrice
          | none => info.regularMarketPrice
        match price with
        | some v => if v.truthy && !v.isna then some v else none
        | none => none
      | _ => none

/-- Lines 101-122: 52-week high, two ordered attempts, each keeping only a
truthy non-NaN value. -/
def selectHigh (p : Provider) : Option PyFloat :=
  let m1 : Option PyFloat :=
    match p.fastHigh with
    | .ok (some high) => if high.truthy && !high.isna then some high else none
    | _ => none
  match m1 with
  | some v => some v
  | none =>
    match p.infoHigh with
    | .ok (some info) =>
      match info.fiftyTwoWeekHigh with
      | some high => if high.truthy && !high.isna then some high else none
      | none => none
    | _ => none

/-- Lines 124-132: the drawdown string.  Computed only when both values are
non-`None` and `year_high > 0` (`NaN > 0` is false in Python); a NaN rate
(NaN current price) is rejected by `pd.isna(rate)`, leaving `"N/A"`. -/
def computeDropRate (current_price year_high : Option PyFloat) : String :=
  match current_price, year_high with
  | some cp, some yh =>
    match yh with
    | .nan => "N/A"
    | .num h =>
      if 0 < h then
        match cp with
        | .nan => "N/A"
        | .num c => "-" ++ reprRound2 ((h - c) / h * 100) ++ "%"
      else "N/A"
  | _, _ => "N/A"

/-- Lines 134-143: daily change from
`info.get('regularMarketChangePercent')`; `None` and NaN are rejected, but
there is no truthiness test, so `0.0` is kept and rendered `"0.0%"`. -/
def computeDailyChange (p : Provider) : String :=
  match p.infoChange with
  | .ok (some info) =>
    match info.regularMarketChangePercent with
    | some .nan => "N/A"
    | some (.num q) => reprRound2 q ++ "%"
    | none => "N/A"
  | _ => "N/A"

/-- The dictionary returned by `get_stock_data` (lines 145-151 and 155-161):
exactly the five keys of the source, `current_price`/`year_high` nullable
floats and the other three keys strings. -/
structure StockData where
  stock_name : String
  current_price : Option PyFloat
  year_high : Option PyFloat
  drop_rate : String
  daily_change : String
deriving DecidableEq

/-- The all-unavailable record of the outer `except` branch
(lines 155-161). -/
def allNAData : StockData :=
  { stock_name := "N/A", current_price := none, year_high := none,
    drop_rate := "N/A", daily_change := "N/A" }

/-- Python `str(e)[:50]`: the first 50 characters. -/
def strTake50 (e : String) : String := ⟨e.data.take 50⟩

/-- Lines 45-161, `get_stock_data`: a total function from the provider's
behaviour to the returned dictionary together with the list of lines the
call prints (totality embeds "never raises to the caller").  When
`yf.Ticker` raises, the outer handler prints the truncated diagnostic of
line 154 and returns the all-unavailable record. -/
def get_stock_data (ticker : String) (p : Provider) : StockData × List String :=
  match p.ctorExc with
  | some e =>
    (allNAData, ["  " ++ ticker ++ " 데이터 수집 실패: " ++ strTake50 e ++ "..."])
  | none =>
    let current_price := selectPrice p
    let year_high := selectHigh p
    ({ stock_name := selectName p,
       current_price := current_price,
       year_high := year_high,
       drop_rate := computeDropRate current_price year_high,
       daily_change := computeDailyChange p }, [])

/-- All-characters-are-digits test. -/
def allDigits (cs : List Char) : Bool := cs.all (fun c => c.isDigit)

/-- Numeric value of a decimal digit character. -/
def digitVal (c : Char) : ℕ := c.toNat - 48

/-- Numeric value of a digit string. -/
def natOfDigits (cs : List Char) : ℕ :=
  cs.foldl (fun n c => n * 10 + digitVal c) 0

/-- Digits-with-at-most-one-point part of `parsePyFloat`, after the sign has
been consumed: at least one digit overall is required, so `"12"`, `"5."` and
`".5"` are accepted and `"."`, `""` or anything with a stray character is
not. -/
def parseAfterSign (neg : Bool) (rest : List Char) : Option ℚ :=
  let ip := rest.takeWhile (fun c => c != '.')
  let afterDot := rest.dropWhile (fun c => c != '.')
  let fp := afterDot.drop 1
  if allDigits ip && allDigits fp && (!ip.isEmpty || !fp.isEmpty) then
    let mag : ℚ := (natOfDigits ip : ℚ) + (natOfDigits fp : ℚ) / (10 : ℚ) ^ fp.length
    some (if neg then -mag else mag)
  else none

/-- Model of Python `float(s)` on plain decimal literals: optional sign, then
digits with at most one point and at least one digit (`"12"`, `"-3.2"`,
`"5."`, `".5"`).  Strings outside this grammar — in particular `"N/A"` —
fail, modelling the `ValueError` caught by the color helpers. -/
def parsePyFloat (s : String) : Option ℚ :=
  let cs := s.data
  if cs.head? == some '-' then parseAfterSign true (cs.drop 1)
  else if cs.head? == some '+' then parseAfterSign false (cs.drop 1)
  else parseAfterSign false cs

/-- Python `s.replace(c, "")` for a one-character pattern and empty
replacement: remove every occurrence of the character. -/
def removeChar (s : String) (c : Char) : String :=
  ⟨s.data.filter (fun x => x != c)⟩

/-- Lines 187-200 (`get_drop_color_code`): magenta highlight for a drawdown
of at least 10, after stripping `-` and `%`; `"N/A"` and the default
`"-0.00%"` are excluded up front, and an unparsable value falls back to no
color. -/
def get_drop_color_code (drop_rate_str : String) : String :=
  if drop_rate_str == "N/A" || drop_rate_str == "-0.00%" then ""
  else
    match parsePyFloat (removeChar (removeChar drop_rate_str '-') '%') with
    | some rate_num => if 10 ≤ rate_num then "\x1b[95m" else ""
    | none => ""

/-- Lines 202-216 (`get_daily_color_code`): red for a negative daily change,
blue otherwise (for `"N/A"`, the default `"0.00%"`, zero or positive values,
and unparsable values alike). -/
def get_daily_color_code (daily_change_str : String) : String :=
  if daily_change_str == "N/A" || daily_change_str == "0.00%" then "\x1b[94m"
  else
    match parsePyFloat (removeChar daily_change_str '%') with
    | some rate_num => if rate_num < 0 then "\x1b[91m" else "\x1b[94m"
    | none => "\x1b[94m"

/-- Line 220 ANSI reset. -/
def reset_code : String := "\x1b[0m"

/-- Lines 181-182 render defaults: a `None` value renders `"$0"`, otherwise
`f"${x:.2f}"`. -/
def dollar_str : Option PyFloat → String
  | none => "$0"
  | some v => "$" ++ pyFixed2 v

/-- Line 183 render default. -/
def drop_str_of (drop_rate : String) : String :=
  if drop_rate != "N/A" then drop_rate else "-0.00%"

/-- Line 184 render default. -/
def daily_str_of (daily_change : String) : String :=
  if daily_change != "N/A" then daily_change else "0.00%"

/-- Line 222: the drawdown string is wrapped only when a color was chosen. -/
def colored_drop (s : String) : String :=
  if get_drop_color_code s != "" then get_drop_color_code s ++ s ++ reset_code
  else s

/-- Line 223: the daily-change string is always wrapped in its color. -/
def colored_daily (s : String) : String :=
  get_daily_color_code s ++ s ++ reset_code

/-- Lines 164-229 (`format_stock_summary`): the five-line block, translated
with the newlines of the Python triple-quoted literal kept inside the
constant chunks. -/
def format_stock_summary (data : StockData) (ticker : String) : String :=
  "=== " ++ ticker ++ "(" ++ data.stock_name ++ ") ===\n현재가 : "
    ++ dollar_str data.current_price
    ++ "\n52주 최고가 : " ++ dollar_str data.year_high
    ++ "\n고점대비하락률 : " ++ colored_drop (drop_str_of data.drop_rate)
    ++ "\n일 등락율 : " ++ colored_daily (daily_str_of data.daily_change)

/-- Lines 34-42: the static sector table, in declared order. -/
def SECTOR_TICKERS : List (String × List String) := [
  ("🏢 기술주 (Technology)",
    ["AAPL", "MSFT", "GOOGL", "META", "NVDA", "ORCL", "AVGO", "AMD", "PLTR"]),
  ("🛒 소비재/전자상거래 (Consumer & E-commerce)", ["AMZN", "TSLA", "WMT", "WM"]),
  ("💳 금융 (Financial)", ["V", "BRK-B"]),
  ("🏗️ 산업/인프라 (Industrial & Infrastructure)", ["PAVE", "GEV"]),
  ("🚀 우주/방산 (Aerospace & Defense)", ["RKLB"]),
  ("💰 비트코인/암호화폐 (Cryptocurrency)", ["BITQ", "HOOD"]),
  ("📈 ETF (Exchange Traded Funds)",
    ["QQQM", "IGV", "XSW", "XLF", "SCHD", "DGRW", "XLV", "MGK", "SPYV"])
]

/-- Observable actions of `main`: one provider round-trip per ticker, one
`print` payload per call, one fixed 0.5-second pause per
`time.sleep(0.5)`. -/
inductive Event where
  | fetch : String → Event
  | output : String → Event
  | sleep : Event
deriving DecidableEq

/-- The `'=' * 60` separator of lines 241 and 243. -/
def eqLine : String := ⟨List.replicate 60 (Char.ofNat 61)⟩

/-- Lines 245-261, the inner ticker loop: fetch (its own prints included),
print the formatted block, print a separator unless this was the sector's
last ticker, and sleep unless this was the last ticker overall
(`current_ticker_count < total_tickers`). -/
def tickerLoop (env : String → Provider) (total : ℕ) :
    List String → ℕ → ℕ → ℕ → List Event
  | [], _, _, _ => []
  | ticker :: rest, i, len, count =>
    let res := get_stock_data ticker (env ticker)
    Event.fetch ticker ::
      (res.2.map Event.output
        ++ [Event.output (format_stock_summary res.1 ticker)]
        ++ (if i < len - 1 then [Event.output "\n---"] else [])
        ++ (if count + 1 < total then [Event.sleep] else [])
        ++ tickerLoop env total rest (i + 1) len (count + 1))

/-- Lines 239-263, the sector loop: three header prints, the ticker loop,
and a blank line after each sector. -/
def sectorLoop (env : String → Provider) (total : ℕ) :
    List (String × List String) → ℕ → List Event
  | [], _ => []
  | (sector_name, tickers) :: rest, count =>
    Event.output ("\n" ++ eqLine) :: Event.output sector_name ::
      Event.output (eqLine ++ "\n") ::
      (tickerLoop env total tickers 0 tickers.length count
        ++ [Event.output "\n"]
        ++ sectorLoop env total rest (count + tickers.length))

/-- Line 236: the total ticker count of the table. -/
def total_tickers : ℕ := (SECTOR_TICKERS.map (fun st => st.2.length)).sum

/-- Lines 232-265 (`main`) as an event trace, parametrised by the provider
behaviour observed for each ticker. -/
def main_events (env : String → Provider) : List Event :=
  Event.output "Python 주식 포트폴리오 분석을 시작합니다...\n" ::
    (sectorLoop env total_tickers SECTOR_TICKERS 0
      ++ [Event.output "모든 분석이 완료되었습니다!"])

/-- Modelled from the words of claim C3: the first non-null, non-NaN numeric
value among, in order, the fast-quote last price, the most recent daily
close, and the metadata current/regular-market price, each candidate taken
as absent when its access throws. -/
def firstNumeric : List (Option PyFloat) → Option ℚ
  | [] => none
  | some (.num q) :: _ => some q
  | _ :: rest => firstNumeric rest

/-- Value of a fallible optional-float access, absent on a raise. -/
def rawAttempt (a : Attempt (Option PyFloat)) : Option PyFloat :=
  match a with
  | .ok v => v
  | .error _ => none

/-- Modelled from the words of claim C3: the metadata "current/regular-market
price" — the `currentPrice` key when set, else the `regularMarketPrice`
key. -/
def rawMetaPrice (p : Provider) : Option PyFloat :=
  match p.infoPrice with
  | .ok (some info) =>
    match info.currentPrice with
    | some v => some v
    | none => info.regularMarketPrice
  | _ => none

/-- Modelled from the words of claim C3 (the claimed selection rule). -/
def claimedPriceSelection (p : Provider) : Option ℚ :=
  firstNumeric [rawAttempt p.fastPrice, rawAttempt p.histClose, rawMetaPrice p]

/-- The amended selection rule for C3: ordered, fault-isolated attempts with
first-success-wins, where the fast-quote and metadata attempts accept only
truthy (hence nonzero) non-NaN values — the metadata candidate formed by
Python `or` — while the history attempt accepts the last close of a
non-empty history unconditionally (zero or NaN included). -/
def amendedPriceSelection (p : Provider) : Option PyFloat :=
  let a1 : Option PyFloat :=
    match p.fastPrice with
    | .ok (some v) => if v.truthy && !v.isna then some v else none
    | _ => none
  let a2 : Option PyFloat :=
    match p.histClose with
    | .ok (some v) => some v
    | _ => none
  let a3 : Option PyFloat :=
    match p.infoPrice with
    | .ok (some info) =>
      let pr : Option PyFloat :=
        match info.currentPrice with
        | some v => if v.truthy then some v else info.regularMarketPrice
        | none => info.regularMarketPrice
      match pr with
      | some v => if v.truthy && !v.isna then some v else none
      | none => none
    | _ => none
  a1.orElse fun _ => a2.orElse fun _ => a3

/-- Join lines with a newline separator (the shape of the formatter's
five-line block). -/
def joinLines : List String → String
  | [] => ""
  | [l] => l
  | l :: l2 :: rest => l ++ "\n" ++ joinLines (l2 :: rest)

/-- A newline-free string: the property making a string a single output
line. -/
abbrev noNL (s : String) : Prop := ∀ c ∈ s.data, c ≠ '\n'

lemma noNL_append {a b : String} (ha : noNL a) (hb : noNL b) : noNL (a ++ b) := by
  intro c hc
  rw [String.data_append] at hc
  rcases List.mem_append.mp hc with h | h
  exacts [ha c h, hb c h]

lemma char_ofNat_digit (m : ℕ) (h : m < 10) :
    (Char.ofNat (48 + m)).isDigit = true := by
  interval_cases m <;> decide

lemma natDecAux_digits (fuel : ℕ) :
    ∀ (n : ℕ) (acc : List Char), (∀ c ∈ acc, c.isDigit = true) →
      ∀ c ∈ natDecAux fuel n acc, c.isDigit = true := by
  induction fuel with
  | zero => intro n acc h c hc; exact h c hc
  | succ f ih =>
    intro n acc h c hc
    rw [natDecAux] at hc
    by_cases hn : n = 0
    · rw [if_pos hn] at hc; exact h c hc
    · rw [if_neg hn] at hc
      refine ih (n / 10) _ ?_ c hc
      intro d hd
      rcases List.mem_cons.mp hd with rfl | hd
      · exact char_ofNat_digit (n % 10) (Nat.mod_lt _ (by norm_num))
      · exact h d hd

lemma natDec_digits (n : ℕ) : ∀ c ∈ (natDec n).data, c.isDigit = true := by
  unfold natDec
  by_cases hn : n = 0
  · rw [if_pos hn]; decide
  · rw [if_neg hn]
    exact natDecAux_digits (n + 1) n [] (by simp)

lemma isDigit_ne {c d : Char} (h : c.isDigit = true) (hd : d.isDigit = false) :
    c ≠ d := by
  intro he
  rw [he, hd] at h
  cases h

lemma noNL_natDec (n : ℕ) : noNL (natDec n) :=
  fun c hc => isDigit_ne (natDec_digits n c hc) (by decide)

lemma noNL_fmtHundredths (n : ℤ) : noNL (fmtHundredths n) := by
  simp only [fmtHundredths]
  split_ifs <;> (repeat' apply noNL_append) <;>
    first
      | exact noNL_natDec _
      | decide

lemma noNL_fmtFixed2 (q : ℚ) : noNL (fmtFixed2 q) := by
  simp only [fmtFixed2]
  split_ifs <;> (repeat' apply noNL_append) <;>
    first
      | exact noNL_natDec _
      | decide

lemma noNL_pyFixed2 (v : PyFloat) : noNL (pyFixed2 v) := by
  cases v with
  | nan => decide
  | num q => exact noNL_fmtFixed2 q

lemma noNL_dollar_str (v : Option PyFloat) : noNL (dollar_str v) := by
  cases v with
  | none => decide
  | some f => exact noNL_append (by decide) (noNL_pyFixed2 f)

lemma get_drop_color_code_eq (s : String) :
    get_drop_color_code s = "" ∨ get_drop_color_code s = "\x1b[95m" := by
  unfold get_drop_color_code
  split
  · left; rfl
  · split
    · split_ifs
      · right; rfl
      · left; rfl
    · left; rfl

lemma get_daily_color_code_eq (s : String) :
    get_daily_color_code s = "\x1b[94m" ∨ get_daily_color_code s = "\x1b[91m" := by
  unfold get_daily_color_code
  split
  · left; rfl
  · split
    · split_ifs
      · right; rfl
      · left; rfl
    · left; rfl

lemma noNL_colored_drop {s : String} (h : noNL s) : noNL (colored_drop s) := by
  unfold colored_drop
  split_ifs with hc
  · rcases get_drop_color_code_eq s with he | he <;>
      rw [he] <;> exact noNL_append (noNL_append (by decide) h) (by decide)
  · exact h

lemma noNL_colored_daily {s : String} (h : noNL s) : noNL (colored_daily s) := by
  unfold colored_daily
  rcases get_daily_color_code_eq s with he | he <;>
    rw [he] <;> exact noNL_append (noNL_append (by decide) h) (by decide)

lemma noNL_drop_str_of {s : String} (h : noNL s) : noNL (drop_str_of s) := by
  unfold drop_str_of
  split_ifs
  · exact h
  · decide

lemma noNL_daily_str_of {s : String} (h : noNL s) : noNL (daily_str_of s) := by
  unfold daily_str_of
  split_ifs
  · exact h
  · decide

lemma format_eq (d : StockData) (t : String) :
    format_stock_summary d t = joinLines
      ["=== " ++ t ++ "(" ++ d.stock_name ++ ") ===",
       "현재가 : " ++ dollar_str d.current_price,
       "52주 최고가 : " ++ dollar_str d.year_high,
       "고점대비하락률 : " ++ colored_drop (drop_str_of d.drop_rate),
       "일 등락율 : " ++ colored_daily (daily_str_of d.daily_change)] := by
  apply String.ext
  simp [format_stock_summary, joinLines, String.data_append, List.append_assoc]

lemma self_ne_wrap (s pre suf : String) (h : 0 < pre.length + suf.length) :
    s ≠ pre ++ s ++ suf := by
  intro he
  have hl := congrArg String.length he
  simp only [String.length_append] at hl
  omega

lemma natDecAux_length (fuel : ℕ) :
    ∀ (n : ℕ) (acc : List Char), acc.length ≤ (natDecAux fuel n acc).length := by
  induction fuel with
  | zero => intro n acc; exact le_refl _
  | succ f ih =>
    intro n acc
    rw [natDecAux]
    by_cases hn : n = 0
    · rw [if_pos hn]
    · rw [if_neg hn]
      calc acc.length ≤ acc.length + 1 := Nat.le_succ _
        _ = (Char.ofNat (48 + n % 10) :: acc).length := by simp
        _ ≤ _ := ih (n / 10) _

lemma natDec_ne_nil (n : ℕ) : (natDec n).data ≠ [] := by
  unfold natDec
  by_cases hn : n = 0
  · rw [if_pos hn]; decide
  · rw [if_neg hn]
    intro he
    have h1 : (natDecAux (n + 1) n []).length = 0 := by
      simpa using congrArg List.length he
    rw [natDecAux, if_neg hn] at h1
    have h2 := natDecAux_length n (n / 10) [Char.ofNat (48 + n % 10)]
    simp [h1] at h2

lemma natDec_all_digits (n : ℕ) : allDigits (natDec n).data = true :=
  List.all_eq_true.mpr (natDec_digits n)

lemma takeWhile_append_dot (l r : List Char) (hl : ∀ c ∈ l, (c != '.') = true) :
    (l ++ '.' :: r).takeWhile (fun c => c != '.') = l ∧
      (l ++ '.' :: r).dropWhile (fun c => c != '.') = '.' :: r := by
  induction l with
  | nil => constructor <;> simp
  | cons c cd ih =>
    have hc : (c != '.') = true := hl c (List.mem_cons_self c cd)
    have hrest : ∀ x ∈ cd, (x != '.') = true :=
      fun x hx => hl x (List.mem_cons_of_mem c hx)
    constructor
    · simp only [List.cons_append, List.takeWhile_cons, hc, if_pos]
      rw [(ih hrest).1]
    · simp only [List.cons_append, List.dropWhile_cons, hc, if_pos]
      exact (ih hrest).2

lemma isDigit_bne_dot {c : Char} (h : c.isDigit = true) : (c != '.') = true :=
  bne_iff_ne.mpr (isDigit_ne h (by decide))

lemma parseAfterSign_isSome (neg : Bool) (ip fp : List Char)
    (hip : ∀ c ∈ ip, c.isDigit = true) (hfp : ∀ c ∈ fp, c.isDigit = true)
    (hne : ip ≠ []) :
    (parseAfterSign neg (ip ++ '.' :: fp)).isSome = true := by
  have hipd : ∀ c ∈ ip, (c != '.') = true := fun c hc => isDigit_bne_dot (hip c hc)
  have htw := takeWhile_append_dot ip fp hipd
  have h1 : allDigits ip = true := List.all_eq_true.mpr hip
  have h2 : allDigits fp = true := List.all_eq_true.mpr hfp
  have h3 : ip.isEmpty = false := by
    cases ip with
    | nil => exact absurd rfl hne
    | cons a l => rfl
  unfold parseAfterSign
  rw [htw.1, htw.2]
  simp only [List.drop_succ_cons, List.drop_zero]
  rw [if_pos (by simp [h1, h2, h3])]
  simp

/-- A string whose characters are an optional minus sign, then a nonempty
digit run, a point and a digit run, parses as a float. -/
lemma parsePyFloat_isSome_of (s : String) (sgn : Bool) (ip fp : List Char)
    (hdata : s.data = (if sgn then ['-'] else []) ++ ip ++ '.' :: fp)
    (hip : ∀ c ∈ ip, c.isDigit = true) (hfp : ∀ c ∈ fp, c.isDigit = true)
    (hne : ip ≠ []) :
    (parsePyFloat s).isSome = true := by
  unfold parsePyFloat
  rw [hdata]
  cases sgn with
  | true =>
    simp only [if_pos, List.singleton_append, List.cons_append, List.head?_cons,
      List.drop_succ_cons, List.drop_zero]
    rw [if_pos (by rfl)]
    exact parseAfterSign_isSome true ip fp hip hfp hne
  | false =>
    cases ip with
    | nil => exact absurd rfl hne
    | cons c cd =>
      have hcdig : c.isDigit = true := hip c (List.mem_cons_self c cd)
      have hm : c ≠ '-' := isDigit_ne hcdig (show Char.isDigit '-' = false by decide)
      have hp : c ≠ '+' := isDigit_ne hcdig (show Char.isDigit '+' = false by decide)
      simp only [List.nil_append, List.cons_append]
      rw [if_neg (by simp [hm]), if_neg (by simp [hp])]
      exact parseAfterSign_isSome false (c :: cd) fp hip hfp (by simp)

/-- Every string produced by `fmtHundredths` is an optional minus sign, a
nonempty digit run, a point and a nonempty digit run. -/
lemma fmtHundredths_shape (n : ℤ) :
    ∃ (sgn : Bool) (ip fp : List Char),
      (fmtHundredths n).data = (if sgn then ['-'] else []) ++ ip ++ '.' :: fp
      ∧ (∀ c ∈ ip, c.isDigit = true) ∧ (∀ c ∈ fp, c.isDigit = true) ∧ ip ≠ [] := by
  have hzero : ∀ c ∈ ('0' :: (natDec (n.natAbs % 100)).data), c.isDigit = true := by
    intro c hc
    rcases List.mem_cons.mp hc with rfl | hc
    · decide
    · exact natDec_digits _ c hc
  by_cases hneg : n < 0
  · simp only [fmtHundredths, if_pos hneg]
    split_ifs with h1 h2 h3
    · exact ⟨true, (natDec (n.natAbs / 100)).data, ['0'],
        by simp [String.data_append, List.append_assoc], natDec_digits _,
        by decide, natDec_ne_nil _⟩
    · exact ⟨true, (natDec (n.natAbs / 100)).data, (natDec (n.natAbs % 100 / 10)).data,
        by simp [String.data_append, List.append_assoc], natDec_digits _,
        natDec_digits _, natDec_ne_nil _⟩
    · exact ⟨true, (natDec (n.natAbs / 100)).data, '0' :: (natDec (n.natAbs % 100)).data,
        by simp [String.data_append, List.append_assoc], natDec_digits _,
        hzero, natDec_ne_nil _⟩
    · exact ⟨true, (natDec (n.natAbs / 100)).data, (natDec (n.natAbs % 100)).data,
        by simp [String.data_append, List.append_assoc], natDec_digits _,
        natDec_digits _, natDec_ne_nil _⟩
  · simp only [fmtHundredths, if_neg hneg]
    split_ifs with h1 h2 h3
    · exact ⟨false, (natDec (n.natAbs / 100)).data, ['0'],
        by simp [String.data_append, List.append_assoc], natDec_digits _,
        by decide, natDec_ne_nil _⟩
    · exact ⟨false, (natDec (n.natAbs / 100)).data, (natDec (n.natAbs % 100 / 10)).data,
        by simp [String.data_append, List.append_assoc], natDec_digits _,
        natDec_digits _, natDec_ne_nil _⟩
    · exact ⟨false, (natDec (n.natAbs / 100)).data, '0' :: (natDec (n.natAbs % 100)).data,
        by simp [String.data_append, List.append_assoc], natDec_digits _,
        hzero, natDec_ne_nil _⟩
    · exact ⟨false, (natDec (n.natAbs / 100)).data, (natDec (n.natAbs % 100)).data,
        by simp [String.data_append, List.append_assoc], natDec_digits _,
        natDec_digits _, natDec_ne_nil _⟩

/-- Every string produced by `reprRound2` parses back as a float. -/
lemma reprRound2_parses (q : ℚ) : (parsePyFloat (reprRound2 q)).isSome = true := by
  simp only [reprRound2]
  split_ifs with h
  · decide
  · obtain ⟨sgn, ip, fp, hdata, hip, hfp, hne⟩ :=
      fmtHundredths_shape (roundHalfEven (q * 100))
    exact parsePyFloat_isSome_of _ sgn ip fp hdata hip hfp hne

/-- A negative argument never rounds up to a positive integer. -/
lemma roundHalfEven_nonpos {q : ℚ} (h : q < 0) : roundHalfEven q ≤ 0 := by
  have hf : ⌊q⌋ < 0 := by
    have := Int.floor_le_floor h.le
    have h0 : ⌊q⌋ ≤ q := Int.floor_le q
    by_contra hc
    push_neg at hc
    have : (0 : ℚ) ≤ ⌊q⌋ := by exact_mod_cast hc
    linarith [Int.floor_le q]
  simp only [roundHalfEven]
  split_ifs <;> omega

/-- Rounding an integer value is the identity. -/
lemma roundHalfEven_intCast (m : ℤ) : roundHalfEven ((m : ℤ) : ℚ) = m := by
  simp only [roundHalfEven, Int.floor_intCast]
  norm_num

/-- A negative rounded value renders with a leading minus sign. -/
lemma fmtHundredths_neg {n : ℤ} (h : n < 0) : ∃ s : String, fmtHundredths n = "-" ++ s := by
  simp only [fmtHundredths, if_pos h]
  split_ifs
  · exact ⟨natDec (n.natAbs / 100) ++ ".0", by simp [String.append_assoc]⟩
  · exact ⟨natDec (n.natAbs / 100) ++ "." ++ natDec (n.natAbs % 100 / 10),
      by simp [String.append_assoc]⟩
  · exact ⟨natDec (n.natAbs / 100) ++ ".0" ++ natDec (n.natAbs % 100),
      by simp [String.append_assoc]⟩
  · exact ⟨natDec (n.natAbs / 100) ++ "." ++ natDec (n.natAbs % 100),
      by simp [String.append_assoc]⟩

/-- The rendering of `round(x, 2)` for a negative `x` starts with a minus
sign: either the rounded value is still negative, or it is the negative zero
`-0.0`. -/
lemma reprRound2_neg {q : ℚ} (h : q < 0) : ∃ s : String, reprRound2 q = "-" ++ s := by
  simp only [reprRound2]
  split_ifs with h0
  · exact ⟨"0.0", rfl⟩
  · have hle : roundHalfEven (q * 100) ≤ 0 :=
      roundHalfEven_nonpos (by nlinarith)
    have hlt : roundHalfEven (q * 100) < 0 := by
      rcases lt_or_eq_of_le hle with hlt | heq
      · exact hlt
      · exact absurd ⟨heq, h⟩ h0
    exact fmtHundredths_neg hlt

/-- Projection of the event trace onto fetches and sleeps, discarding print
events. -/
def fetchSleepOnly : Event → Option Event
  | .fetch t => some (.fetch t)
  | .sleep => some .sleep
  | .output _ => none

/-- Expected fetch/sleep skeleton of the ticker loop: one fetch per ticker,
followed by a sleep unless the global counter has reached the total. -/
def projT : List String → ℕ → ℕ → List Event
  | [], _, _ => []
  | t :: rest, count, total =>
    Event.fetch t ::
      ((if count + 1 < total then [Event.sleep] else []) ++ projT rest (count + 1) total)

/-- Expected fetch/sleep skeleton of the sector loop. -/
def projS : List (String × List String) → ℕ → ℕ → List Event
  | [], _, _ => []
  | (_, ts) :: rest, count, total =>
    projT ts count total ++ projS rest (count + ts.length) total

/-- The watchlist flattened in declared sector order and, within each sector,
declared ticker order. -/
def allTickers : List String := (SECTOR_TICKERS.map Prod.snd).flatten

lemma filterMap_output_map (l : List String) :
    (l.map Event.output).filterMap fetchSleepOnly = [] := by
  induction l with
  | nil => rfl
  | cons s rest ih => simp [List.filterMap_cons, fetchSleepOnly, ih]

lemma tickerLoop_proj (env : String → Provider) (total : ℕ) :
    ∀ (ts : List String) (i len count : ℕ),
      (tickerLoop env total ts i len count).filterMap fetchSleepOnly
        = projT ts count total := by
  intro ts
  induction ts with
  | nil => intro i len count; rfl
  | cons t rest ih =>
    intro i len count
    simp only [tickerLoop, projT, List.filterMap_cons, fetchSleepOnly,
      List.filterMap_append, filterMap_output_map, ih]
    split_ifs <;> simp [fetchSleepOnly]

lemma sectorLoop_proj (env : String → Provider) (total : ℕ) :
    ∀ (secs : List (String × List String)) (count : ℕ),
      (sectorLoop env total secs count).filterMap fetchSleepOnly
        = projS secs count total := by
  intro secs
  induction secs with
  | nil => intro count; rfl
  | cons sec rest ih =>
    intro count
    obtain ⟨name, ts⟩ := sec
    simp only [sectorLoop, projS, List.filterMap_cons, fetchSleepOnly,
      List.filterMap_append, List.filterMap_nil, tickerLoop_proj, ih,
      List.append_nil]

lemma main_events_proj (env : String → Provider) :
    (main_events env).filterMap fetchSleepOnly
      = projS SECTOR_TICKERS 0 total_tickers := by
  simp only [main_events, List.filterMap_cons, fetchSleepOnly,
    List.filterMap_append, sectorLoop_proj]
  rfl

/-- On the non-raising path the returned record is assembled from the field
selectors. -/
lemma gsd_fields (t : String) (p : Provider) (h : p.ctorExc = none) :
    get_stock_data t p =
      ({ stock_name := selectName p,
         current_price := selectPrice p,
         year_high := selectHigh p,
         drop_rate := computeDropRate (selectPrice p) (selectHigh p),
         daily_change := computeDailyChange p }, []) := by
  simp [get_stock_data, h]

lemma computeDropRate_none_left (yh : Option PyFloat) :
    computeDropRate none yh = "N/A" := by
  cases yh <;> rfl

lemma computeDropRate_none_right (cp : Option PyFloat) :
    computeDropRate cp none = "N/A" := by
  cases cp <;> rfl

lemma computeDropRate_nan_high (cp : PyFloat) :
    computeDropRate (some cp) (some .nan) = "N/A" := rfl

lemma computeDropRate_nan_price (yh : PyFloat) :
    computeDropRate (some .nan) (some yh) = "N/A" := by
  cases yh with
  | nan => rfl
  | num h => simp only [computeDropRate]; split_ifs <;> rfl

lemma computeDropRate_nonpos (cp : Option PyFloat) {h : ℚ} (hle : h ≤ 0) :
    computeDropRate cp (some (.num h)) = "N/A" := by
  cases cp with
  | none => rfl
  | some v => simp only [computeDropRate]; rw [if_neg (not_lt.mpr hle)]

lemma computeDropRate_num (c h : ℚ) (hpos : 0 < h) :
    computeDropRate (some (.num c)) (some (.num h))
      = "-" ++ reprRound2 ((h - c) / h * 100) ++ "%" := by
  simp only [computeDropRate]
  rw [if_pos hpos]

/-- Claim C1: when the fetched record carries a numeric current price and a
strictly positive numeric 52-week high, its drawdown field is the rounded
percentage `round((yearHigh - currentPrice) / yearHigh * 100, 2)` rendered as
`"-{value}%"`; when the current price or the year high is absent, or the year
high is not strictly positive, the drawdown field is `"N/A"`. -/
theorem C1_drawdown_formula (t : String) (p : Provider) :
    (∀ c h : ℚ, (get_stock_data t p).1.current_price = some (.num c) →
        (get_stock_data t p).1.year_high = some (.num h) → 0 < h →
        (get_stock_data t p).1.drop_rate = "-" ++ reprRound2 ((h - c) / h * 100) ++ "%")
    ∧ ((get_stock_data t p).1.current_price = none →
        (get_stock_data t p).1.drop_rate = "N/A")
    ∧ ((get_stock_data t p).1.year_high = none →
        (get_stock_data t p).1.drop_rate = "N/A")
    ∧ (∀ h : ℚ, (get_stock_data t p).1.year_high = some (.num h) → h ≤ 0 →
        (get_stock_data t p).1.drop_rate = "N/A") := by
  rcases hc : p.ctorExc with _ | e
  · have hfld := gsd_fields t p hc
    rw [hfld]
    refine ⟨?_, ?_, ?_, ?_⟩
    · intro c h h1 h2 h3
      simp only at h1 h2 ⊢
      rw [h1, h2]
      exact computeDropRate_num c h h3
    · intro h1
      simp only at h1 ⊢
      rw [h1]
      exact computeDropRate_none_left _
    · intro h1
      simp only at h1 ⊢
      rw [h1]
      exact computeDropRate_none_right _
    · intro h h1 h2
      simp only at h1 ⊢
      rw [h1]
      exact computeDropRate_nonpos _ h2
  · have hfld : get_stock_data t p
        = (allNAData, ["  " ++ t ++ " 데이터 수집 실패: " ++ strTake50 e ++ "..."]) := by
      simp [get_stock_data, hc]
    rw [hfld]
    refine ⟨?_, ?_, ?_, ?_⟩ <;> intro _ <;> simp_all [allNAData]

/-- Example provider for C1: the fast quote answers with price 150 and
52-week high 200, every other access is empty. -/
def provC1 : Provider :=
  { ctorExc := none, infoName := Except.ok none,
    fastPrice := Except.ok (some (.num 150)), histClose := Except.ok none,
    infoPrice := Except.ok none, fastHigh := Except.ok (some (.num 200)),
    infoHigh := Except.ok none, infoChange := Except.ok none }

/-- Witness for C1 at a concrete fetch: price 150, high 200 gives the
drawdown string `"-25.0%"`. -/
theorem C1_drawdown_formula_witness :
    (get_stock_data "AAPL" provC1).1.drop_rate = "-25.0%" := by
  have h := (C1_drawdown_formula "AAPL" provC1).1 150 200 (by decide) (by decide)
    (by norm_num)
  rw [h]
  rw [show ((200 : ℚ) - 150) / 200 * 100 = ((25 : ℤ) : ℚ) by norm_num]
  have h2 : roundHalfEven (((25 : ℤ) : ℚ) * 100) = 2500 := by
    rw [show (((25 : ℤ) : ℚ) * 100) = ((2500 : ℤ) : ℚ) by norm_num]
    exact roundHalfEven_intCast 2500
  simp only [reprRound2, h2]
  rw [if_neg (by norm_num)]
  decide

/-- Claim C2: `get_stock_data` is total (it returns a record for every
provider behaviour — nothing escapes to the caller), and when the provider
constructor raises with message `e` the returned record is all-unavailable
and the single printed line carries the first 50 characters of `e`. -/
theorem C2_total_failure (t : String) (p : Provider) (e : String)
    (h : p.ctorExc = some e) :
    get_stock_data t p =
      ({ stock_name := "N/A", current_price := none, year_high := none,
         drop_rate := "N/A", daily_change := "N/A" },
       ["  " ++ t ++ " 데이터 수집 실패: " ++ strTake50 e ++ "..."]) := by
  simp [get_stock_data, h, allNAData]

/-- Example provider for C2: the `yf.Ticker` constructor raises with a
60-character message. -/
def provC2 : Provider :=
  { ctorExc := some "012345678901234567890123456789012345678901234567890123456789",
    infoName := Except.ok none, fastPrice := Except.ok none,
    histClose := Except.ok none, infoPrice := Except.ok none,
    fastHigh := Except.ok none, infoHigh := Except.ok none,
    infoChange := Except.ok none }

/-- Witness for C2: the 60-character error message is truncated to its first
50 characters in the diagnostic line and the record degrades entirely. -/
theorem C2_total_failure_witness :
    get_stock_data "MSFT" provC2 =
      ({ stock_name := "N/A", current_price := none, year_high := none,
         drop_rate := "N/A", daily_change := "N/A" },
       ["  MSFT 데이터 수집 실패: 01234567890123456789012345678901234567890123456789..."]) := by
  have h := C2_total_failure "MSFT" provC2
    "012345678901234567890123456789012345678901234567890123456789" (by decide)
  rw [h]
  decide

/-- Counterexample provider for C3: the fast quote answers with the numeric
price `0.0` and the history path answers with last close `5.0`. -/
def provC3cex : Provider :=
  { ctorExc := none, infoName := Except.ok none,
    fastPrice := Except.ok (some (.num 0)), histClose := Except.ok (some (.num 5)),
    infoPrice := Except.ok none, fastHigh := Except.ok none,
    infoHigh := Except.ok none, infoChange := Except.ok none }

/-- Counterexample for C3 as stated: with a fast-quote price of `0.0` — a
non-null, non-NaN numeric value — the claimed rule selects `0`, but the code
skips it (Python truthiness: `if price:` is false at `0.0`) and takes the
history close `5` instead. -/
theorem C3_counterexample :
    claimedPriceSelection provC3cex = some 0
    ∧ (get_stock_data "AAPL" provC3cex).1.current_price = some (.num 5)
    ∧ (get_stock_data "AAPL" provC3cex).1.current_price
        ≠ (claimedPriceSelection provC3cex).map PyFloat.num := by
  refine ⟨by decide, by decide, by decide⟩

/-- Claim C3 amended: the current price comes from the three paths in order
with first-success-wins and per-path fault isolation, but the fast-quote and
metadata paths accept only truthy (non-null, non-zero) non-NaN values, while
the history path accepts the last close of a non-empty history
unconditionally. -/
theorem C3_amended_price_selection (t : String) (p : Provider)
    (h : p.ctorExc = none) :
    (get_stock_data t p).1.current_price = amendedPriceSelection p := by
  rw [gsd_fields t p h]
  simp only
  unfold selectPrice amendedPriceSelection
  rcases p.fastPrice with _ | (_ | v)
  · rcases p.histClose with _ | (_ | w)
    · rcases p.infoPrice with _ | (_ | info) <;> simp [Option.orElse]
    · rcases p.infoPrice with _ | (_ | info) <;> simp [Option.orElse]
    · simp [Option.orElse]
  · rcases p.histClose with _ | (_ | w)
    · rcases p.infoPrice with _ | (_ | info) <;> simp [Option.orElse]
    · rcases p.infoPrice with _ | (_ | info) <;> simp [Option.orElse]
    · simp [Option.orElse]
  · by_cases hv : (v.truthy && !v.isna) = true
    · simp [hv, Option.orElse]
    · simp only [Bool.not_eq_true] at hv
      rcases p.histClose with _ | (_ | w)
      · rcases p.infoPrice with _ | (_ | info) <;> simp [hv, Option.orElse]
      · rcases p.infoPrice with _ | (_ | info) <;> simp [hv, Option.orElse]
      · simp [hv, Option.orElse]

/-- Example provider for the amended C3: fast quote empty, history close 5. -/
def provC3wit : Provider :=
  { ctorExc := none, infoName := Except.ok none,
    fastPrice := Except.ok none, histClose := Except.ok (some (.num 5)),
    infoPrice := Except.ok none, fastHigh := Except.ok none,
    infoHigh := Except.ok none, infoChange := Except.ok none }

/-- Witness for the amended C3 at a concrete provider. -/
theorem C3_amended_price_selection_witness :
    (get_stock_data "NVDA" provC3wit).1.current_price = amendedPriceSelection provC3wit
    ∧ amendedPriceSelection provC3wit = some (.num 5) :=
  ⟨C3_amended_price_selection "NVDA" provC3wit (by decide), by decide⟩

/-- Claim C8: the projection of a full run onto fetch and sleep events is,
for every provider behaviour, exactly the declared-order ticker fetches with
one sleep interspersed between every consecutive pair — so N fetches, N−1
delays and no delay after the final ticker — with N = 29. -/
theorem C8_sequential_schedule (env : String → Provider) :
    (main_events env).filterMap fetchSleepOnly
        = List.intersperse Event.sleep (allTickers.map Event.fetch)
    ∧ ((main_events env).filterMap fetchSleepOnly).count Event.sleep
        = allTickers.length - 1
    ∧ allTickers.length = 29 := by
  rw [main_events_proj env]
  refine ⟨by decide, by decide, by decide⟩

lemma computeDailyChange_shape (p : Provider) :
    computeDailyChange p = "N/A"
      ∨ ∃ q : ℚ, computeDailyChange p = reprRound2 q ++ "%" := by
  unfold computeDailyChange
  rcases p.infoChange with _ | (_ | info)
  · exact Or.inl rfl
  · exact Or.inl rfl
  · rcases hq : info.regularMarketChangePercent with _ | (_ | q)
    · exact Or.inl (by simp [hq])
    · exact Or.inl (by simp [hq])
    · exact Or.inr ⟨q, by simp [hq]⟩

lemma computeDropRate_shape (cp yh : Option PyFloat) :
    computeDropRate cp yh = "N/A"
      ∨ ∃ q : ℚ, computeDropRate cp yh = "-" ++ reprRound2 q ++ "%" := by
  cases cp with
  | none => exact Or.inl (computeDropRate_none_left yh)
  | some v =>
    cases yh with
    | none => exact Or.inl (computeDropRate_none_right _)
    | some w =>
      cases w with
      | nan => exact Or.inl (computeDropRate_nan_high v)
      | num h =>
        by_cases hpos : 0 < h
        · cases v with
          | nan => exact Or.inl (computeDropRate_nan_price _)
          | num c => exact Or.inr ⟨(h - c) / h * 100, computeDropRate_num c h hpos⟩
        · exact Or.inl (computeDropRate_nonpos _ (not_lt.mp hpos))

/-- Claim C10: every record returned by `get_stock_data` — on the success
path and on the total-failure path alike — has the five-field shape of
`StockData` (the structure type itself fixes the key set and makes
`stock_name`, `drop_rate`, `daily_change` strings and the two prices nullable
floats), with `drop_rate` either `"N/A"` or a dash-prefixed rendered number
followed by `"%"`, and `daily_change` either `"N/A"` or a rendered number
followed by `"%"`; both rendered numbers parse back as floats. -/
theorem C10_record_shape (t : String) (p : Provider) :
    ((get_stock_data t p).1.drop_rate = "N/A"
      ∨ ∃ s : String, (get_stock_data t p).1.drop_rate = "-" ++ s ++ "%"
          ∧ (parsePyFloat s).isSome = true)
    ∧ ((get_stock_data t p).1.daily_change = "N/A"
      ∨ ∃ s : String, (get_stock_data t p).1.daily_change = s ++ "%"
          ∧ (parsePyFloat s).isSome = true)
    ∧ ((get_stock_data t p).1.current_price = none
      ∨ ∃ v : PyFloat, (get_stock_data t p).1.current_price = some v)
    ∧ ((get_stock_data t p).1.year_high = none
      ∨ ∃ v : PyFloat, (get_stock_data t p).1.year_high = some v) := by
  rcases hc : p.ctorExc with _ | e
  · rw [gsd_fields t p hc]
    refine ⟨?_, ?_, ?_, ?_⟩
    · simp only
      rcases computeDropRate_shape (selectPrice p) (selectHigh p) with h | ⟨q, hq⟩
      · exact Or.inl h
      · exact Or.inr ⟨reprRound2 q, hq, reprRound2_parses q⟩
    · simp only
      rcases computeDailyChange_shape p with h | ⟨q, hq⟩
      · exact Or.inl h
      · exact Or.inr ⟨reprRound2 q, hq, reprRound2_parses q⟩
    · simp only
      rcases selectPrice p with _ | v
      · exact Or.inl rfl
      · exact Or.inr ⟨v, rfl⟩
    · simp only
      rcases selectHigh p with _ | v
      · exact Or.inl rfl
      · exact Or.inr ⟨v, rfl⟩
  · have hfld : get_stock_data t p
        = (allNAData, ["  " ++ t ++ " 데이터 수집 실패: " ++ strTake50 e ++ "..."]) := by
      simp [get_stock_data, hc]
    rw [hfld]
    exact ⟨Or.inl rfl, Or.inl rfl, Or.inl rfl, Or.inl rfl⟩

lemma parse_zero_hundredths : parsePyFloat "0.00" = some 0 := by
  simp [parsePyFloat, parseAfterSign, allDigits, natOfDigits, digitVal]

lemma wrap_color_ne (s a b : String) (hab : a.data ≠ b.data) :
    a ++ s ++ reset_code ≠ b ++ s ++ reset_code := by
  intro h
  have hd := congrArg String.data h
  simp only [String.data_append] at hd
  have h1 : a.data ++ s.data = b.data ++ s.data := List.append_cancel_right hd
  exact hab (List.append_cancel_right h1)

/-- Claim C4: the drawdown string is wrapped in the magenta highlight exactly
when the value obtained by stripping every `-` and `%` parses as a number of
at least 10; the literal `"N/A"` and the default `"-0.00%"` stay uncolored,
and so does any string whose stripped form fails to parse. -/
theorem C4_drop_highlight (s : String) :
    (colored_drop s = "\x1b[95m" ++ s ++ "\x1b[0m"
        ↔ ∃ q : ℚ, parsePyFloat (removeChar (removeChar s '-') '%') = some q ∧ 10 ≤ q)
    ∧ colored_drop "N/A" = "N/A"
    ∧ colored_drop "-0.00%" = "-0.00%"
    ∧ (parsePyFloat (removeChar (removeChar s '-') '%') = none → colored_drop s = s) := by
  have hwrap : ∀ u : String, u ≠ "\x1b[95m" ++ u ++ "\x1b[0m" := by
    intro u
    exact self_ne_wrap u "\x1b[95m" "\x1b[0m" (by decide)
  by_cases h1 : s = "N/A"
  · subst h1
    refine ⟨iff_of_false (by decide) ?_, by decide, by decide, fun _ => by decide⟩
    rintro ⟨q, hq, -⟩
    rw [(by decide : parsePyFloat (removeChar (removeChar "N/A" '-') '%') = none)] at hq
    cases hq
  by_cases h2 : s = "-0.00%"
  · subst h2
    refine ⟨iff_of_false (by decide) ?_, by decide, by decide, fun _ => by decide⟩
    rintro ⟨q, hq, h10⟩
    rw [(by decide : removeChar (removeChar "-0.00%" '-') '%' = "0.00"),
      parse_zero_hundredths] at hq
    cases hq
    norm_num at h10
  have hcond : (s == "N/A" || s == "-0.00%") = false := by
    simp [h1, h2]
  have hcode : get_drop_color_code s
      = (match parsePyFloat (removeChar (removeChar s '-') '%') with
         | some rate_num => if 10 ≤ rate_num then "\x1b[95m" else ""
         | none => "") := by
    simp only [get_drop_color_code, hcond]
    rfl
  refine ⟨?_, by decide, by decide, ?_⟩
  · rcases hp : parsePyFloat (removeChar (removeChar s '-') '%') with _ | r
    · have hc : get_drop_color_code s = "" := by rw [hcode, hp]
      have hcd : colored_drop s = s := by simp [colored_drop, hc]
      refine iff_of_false (by rw [hcd]; exact hwrap s) ?_
      rintro ⟨q, hq, -⟩
      cases hq
    · by_cases h10 : 10 ≤ r
      · have hc : get_drop_color_code s = "\x1b[95m" := by
          rw [hcode, hp]
          simp [h10]
        have hcd : colored_drop s = "\x1b[95m" ++ s ++ "\x1b[0m" := by
          simp only [colored_drop, hc]
          rfl
        exact iff_of_true hcd ⟨r, rfl, h10⟩
      · have hc : get_drop_color_code s = "" := by
          rw [hcode, hp]
          simp [h10]
        have hcd : colored_drop s = s := by simp [colored_drop, hc]
        refine iff_of_false (by rw [hcd]; exact hwrap s) ?_
        rintro ⟨q, hq, hq10⟩
        cases hq
        exact h10 hq10
  · intro hp
    have hc : get_drop_color_code s = "" := by rw [hcode, hp]
    simp [colored_drop, hc]

/-- Claim C5: the daily-change string is wrapped in the red (negative) color
exactly when the string with `%` stripped parses as a number strictly below
zero; zero, positive, unavailable and unparseable values all get the blue
(neutral/positive) wrap. -/
theorem C5_daily_color (s : String) :
    (colored_daily s = "\x1b[91m" ++ s ++ reset_code
        ↔ ∃ q : ℚ, parsePyFloat (removeChar s '%') = some q ∧ q < 0)
    ∧ ((¬ ∃ q : ℚ, parsePyFloat (removeChar s '%') = some q ∧ q < 0) →
        colored_daily s = "\x1b[94m" ++ s ++ reset_code) := by
  have hbr : ∀ u : String, "\x1b[94m" ++ u ++ reset_code ≠ "\x1b[91m" ++ u ++ reset_code :=
    fun u => wrap_color_ne u "\x1b[94m" "\x1b[91m" (by decide)
  by_cases h1 : s = "N/A"
  · subst h1
    have hnp : parsePyFloat (removeChar "N/A" '%') = none := by decide
    refine ⟨iff_of_false (by decide) ?_, fun _ => by decide⟩
    rintro ⟨q, hq, -⟩
    rw [hnp] at hq
    cases hq
  by_cases h2 : s = "0.00%"
  · subst h2
    refine ⟨iff_of_false (by decide) ?_, fun _ => by decide⟩
    rintro ⟨q, hq, hq0⟩
    rw [(by decide : removeChar "0.00%" '%' = "0.00"), parse_zero_hundredths] at hq
    cases hq
    norm_num at hq0
  have hcond : (s == "N/A" || s == "0.00%") = false := by
    simp [h1, h2]
  have hcode : get_daily_color_code s
      = (match parsePyFloat (removeChar s '%') with
         | some rate_num => if rate_num < 0 then "\x1b[91m" else "\x1b[94m"
         | none => "\x1b[94m") := by
    simp only [get_daily_color_code, hcond]
    rfl
  rcases hp : parsePyFloat (removeChar s '%') with _ | r
  · have hc : get_daily_color_code s = "\x1b[94m" := by rw [hcode, hp]
    have hcd : colored_daily s = "\x1b[94m" ++ s ++ reset_code := by
      rw [colored_daily, hc]
    refine ⟨iff_of_false (by rw [hcd]; exact hbr s) ?_, fun _ => hcd⟩
    rintro ⟨q, hq, -⟩
    cases hq
  · by_cases hneg : r < 0
    · have hc : get_daily_color_code s = "\x1b[91m" := by
        rw [hcode, hp]
        simp [hneg]
      have hcd : colored_daily s = "\x1b[91m" ++ s ++ reset_code := by
        rw [colored_daily, hc]
      refine ⟨iff_of_true hcd ⟨r, rfl, hneg⟩, fun hno => absurd ⟨r, rfl, hneg⟩ hno⟩
    · have hc : get_daily_color_code s = "\x1b[94m" := by
        rw [hcode, hp]
        simp [hneg]
      have hcd : colored_daily s = "\x1b[94m" ++ s ++ reset_code := by
        rw [colored_daily, hc]
      refine ⟨iff_of_false (by rw [hcd]; exact hbr s) ?_, fun _ => hcd⟩
      rintro ⟨q, hq, hq0⟩
      cases hq
      exact hneg hq0

/-- Witness for C4 at a concrete unparsable drawdown string: it stays
uncolored. -/
theorem C4_drop_highlight_witness : colored_drop "abc%" = "abc%" :=
  (C4_drop_highlight "abc%").2.2.2 (by decide)

/-- Witness for C5 at the unavailable daily change: it gets the blue
neutral wrap. -/
theorem C5_daily_color_witness :
    colored_daily "N/A" = "\x1b[94m" ++ "N/A" ++ reset_code :=
  (C5_daily_color "N/A").2 (by
    rintro ⟨q, hq, -⟩
    rw [(by decide : parsePyFloat (removeChar "N/A" '%') = none)] at hq
    cases hq)

/-- Claim C6: the render-time defaults — a `None` current price renders
`"$0"`, a `None` year high renders `"$0"`, an `"N/A"` drawdown renders
`"-0.00%"`, an `"N/A"` daily change renders `"0.00%"` — and these defaulted
strings are exactly what the five-line block displays. -/
theorem C6_render_defaults (d : StockData) (t : String) :
    (d.current_price = none → dollar_str d.current_price = "$0")
    ∧ (d.year_high = none → dollar_str d.year_high = "$0")
    ∧ (d.drop_rate = "N/A" → drop_str_of d.drop_rate = "-0.00%")
    ∧ (d.daily_change = "N/A" → daily_str_of d.daily_change = "0.00%")
    ∧ format_stock_summary d t = joinLines
        ["=== " ++ t ++ "(" ++ d.stock_name ++ ") ===",
         "현재가 : " ++ dollar_str d.current_price,
         "52주 최고가 : " ++ dollar_str d.year_high,
         "고점대비하락률 : " ++ colored_drop (drop_str_of d.drop_rate),
         "일 등락율 : " ++ colored_daily (daily_str_of d.daily_change)] := by
  refine ⟨fun h => by rw [h]; rfl, fun h => by rw [h]; rfl, fun h => by rw [h]; rfl,
    fun h => by rw [h]; rfl, format_eq d t⟩

/-- Witness for C6 at the all-absent record. -/
theorem C6_render_defaults_witness :
    dollar_str allNAData.current_price = "$0"
    ∧ dollar_str allNAData.year_high = "$0"
    ∧ drop_str_of allNAData.drop_rate = "-0.00%"
    ∧ daily_str_of allNAData.daily_change = "0.00%" := by
  have h := C6_render_defaults allNAData "AAPL"
  exact ⟨h.1 rfl, h.2.1 rfl, h.2.2.1 rfl, h.2.2.2.1 rfl⟩

/-- A record whose display name carries a provider-supplied newline. -/
def newlineNameRecord : StockData :=
  { stock_name := "Apple\nInc.", current_price := none, year_high := none,
    drop_rate := "N/A", daily_change := "N/A" }

/-- Counterexample for C7 as stated: one header line plus exactly four body
lines means exactly four newline separators in the output, but a record
whose name contains a newline (names come verbatim from the provider) makes
the formatter emit five newline characters, i.e. six lines. -/
theorem C7_counterexample :
    ((format_stock_summary newlineNameRecord "AAPL").data.count '\n') = 5
    ∧ ((format_stock_summary newlineNameRecord "AAPL").data.count '\n') ≠ 4 :=
  ⟨by decide, by decide⟩

/-- Claim C7 amended: whenever the ticker and the record's string fields are
newline-free, the formatter's output is exactly the newline-join of five
newline-free lines — the `=== TICKER(NAME) ===` header and the four labeled
body lines for current price, 52-week high, drawdown and daily change, in
that order. -/
theorem C7_amended_layout (d : StockData) (t : String)
    (h1 : noNL t) (h2 : noNL d.stock_name) (h3 : noNL d.drop_rate)
    (h4 : noNL d.daily_change) :
    ∃ lines : List String,
      format_stock_summary d t = joinLines lines
      ∧ lines.length = 5
      ∧ (∀ l ∈ lines, noNL l)
      ∧ lines = ["=== " ++ t ++ "(" ++ d.stock_name ++ ") ===",
         "현재가 : " ++ dollar_str d.current_price,
         "52주 최고가 : " ++ dollar_str d.year_high,
         "고점대비하락률 : " ++ colored_drop (drop_str_of d.drop_rate),
         "일 등락율 : " ++ colored_daily (daily_str_of d.daily_change)] := by
  refine ⟨_, format_eq d t, rfl, ?_, rfl⟩
  intro l hl
  simp only [List.mem_cons, List.mem_singleton, List.not_mem_nil, or_false] at hl
  rcases hl with rfl | rfl | rfl | rfl | rfl
  · exact noNL_append (noNL_append (noNL_append (noNL_append (by decide) h1)
      (by decide)) h2) (by decide)
  · exact noNL_append (by decide) (noNL_dollar_str _)
  · exact noNL_append (by decide) (noNL_dollar_str _)
  · exact noNL_append (by decide) (noNL_colored_drop (noNL_drop_str_of h3))
  · exact noNL_append (by decide) (noNL_colored_daily (noNL_daily_str_of h4))

/-- Witness for the amended C7 at the all-absent record. -/
theorem C7_amended_layout_witness :
    format_stock_summary allNAData "AAPL" = joinLines
      ["=== AAPL(N/A) ===", "현재가 : $0", "52주 최고가 : $0",
       "고점대비하락률 : -0.00%", "일 등락율 : \x1b[94m0.00%\x1b[0m"] := by
  obtain ⟨lines, hfmt, -, -, hlines⟩ :=
    C7_amended_layout allNAData "AAPL" (by decide) (by decide) (by decide) (by decide)
  rw [hfmt, hlines]
  decide

/-- Claim C9: when the fetched current price strictly exceeds a positive
52-week high, the drawdown is still rendered with the unconditional `"-"`
prefix in front of a number that carries its own minus sign, so the
displayed string begins with `"--"` — the latent sign defect is preserved. -/
theorem C9_double_negative (t : String) (p : Provider) (c h : ℚ)
    (hc : (get_stock_data t p).1.current_price = some (.num c))
    (hh : (get_stock_data t p).1.year_high = some (.num h))
    (hpos : 0 < h) (hover : h < c) :
    (get_stock_data t p).1.drop_rate = "-" ++ reprRound2 ((h - c) / h * 100) ++ "%"
    ∧ ∃ s : String, (get_stock_data t p).1.drop_rate = "--" ++ s := by
  rcases hctor : p.ctorExc with _ | e
  · rw [gsd_fields t p hctor] at hc hh ⊢
    simp only at hc hh ⊢
    rw [hc, hh]
    have hfst := computeDropRate_num c h hpos
    have hrate : (h - c) / h * 100 < 0 :=
      mul_neg_of_neg_of_pos (div_neg_of_neg_of_pos (sub_neg.mpr hover) hpos)
        (by norm_num)
    obtain ⟨s, hs⟩ := reprRound2_neg hrate
    refine ⟨hfst, s ++ "%", ?_⟩
    rw [hfst, hs]
    apply String.ext
    simp [String.data_append, List.append_assoc]
  · exfalso
    have : get_stock_data t p
        = (allNAData, ["  " ++ t ++ " 데이터 수집 실패: " ++ strTake50 e ++ "..."]) := by
      simp [get_stock_data, hctor]
    rw [this] at hc
    cases hc

/-- Example provider for C9: the fast quote reports price 210 above the
52-week high 200. -/
def provC9 : Provider :=
  { ctorExc := none, infoName := Except.ok none,
    fastPrice := Except.ok (some (.num 210)), histClose := Except.ok none,
    infoPrice := Except.ok none, fastHigh := Except.ok (some (.num 200)),
    infoHigh := Except.ok none, infoChange := Except.ok none }

/-- Witness for C9: price 210 against high 200 displays `"--5.0%"`. -/
theorem C9_double_negative_witness :
    (get_stock_data "TSLA" provC9).1.drop_rate = "--5.0%" := by
  have h := C9_double_negative "TSLA" provC9 210 200 (by decide) (by decide)
    (by norm_num) (by norm_num)
  rw [h.1]
  rw [show ((200 : ℚ) - 210) / 200 * 100 = ((-5 : ℤ) : ℚ) by norm_num]
  have h2 : roundHalfEven (((-5 : ℤ) : ℚ) * 100) = -500 := by
    rw [show (((-5 : ℤ) : ℚ) * 100) = ((-500 : ℤ) : ℚ) by push_cast; norm_num]
    exact roundHalfEven_intCast (-500)
  simp only [reprRound2, h2]
  rw [if_neg (by norm_num)]
  decide
